import Mathlib

/-
Verification development for the `greentest` test-instrumentation layer
(`greentest/greentest.py`).  The Python source is shallowly embedded:

* the metaclass `TestCaseMetaClass.__new__` and the two wrappers
  `wrap_timeout` / `wrap_refcount` are modelled at the level of the
  wrapper composition they build (`WrappedMethod`), and the body of the
  `wrap_refcount` loop is additionally modelled operationally over an
  abstract interpreter state;
* the stderr capture engine (`hook_stderr` / `unhook_stderr` /
  `assert_no_stderr`) is modelled as an explicit state machine;
* the buffer update performed by `TestCase._extract_re` on a successful
  regex match is modelled as a pure function of the buffer and the
  matched span;
* the three matching strategies of `TestCase.assert_stderr` are modelled
  with a small regex matcher covering exactly the constructs appearing
  in the patterns the source builds (literals, `.`, lazy/greedy stars of
  a single character class, `$` anchors with and without `re.M`, and the
  bounded group repetition of the third pattern);
* `CountingHub.switch` is modelled as a state transformer over a hub
  that carries a switch counter next to the original hub's state;
* `walk_modules` is modelled over an abstract directory tree.
-/

set_option autoImplicit false

namespace Greentest

/-! ## Instrumentation composition (`TestCaseMetaClass.__new__`) -/

/--
Shape of a (possibly wrapped) test method.  `orig` is the method as it
appears in the class dictionary before instrumentation; `timeoutGuard m`
is the callable returned by `wrap_timeout` when a timeout is configured;
`refcountLoop m` is the callable returned by `wrap_refcount` when the
runtime exposes `sys.gettotalrefcount`.  The head constructor is the
outermost wrapper: invoking `refcountLoop m` enters the leak-detection
loop, which calls `m` on each iteration.
-/
inductive WrappedMethod where
  | orig
  | timeoutGuard (inner : WrappedMethod)
  | refcountLoop (inner : WrappedMethod)
  deriving DecidableEq, Repr

/--
Composition-level model of `wrap_timeout` (greentest.py lines 49-56):
`if timeout is None: return method`, otherwise return a wrapper running
the method under `gevent.Timeout(timeout)`.
-/
def wrap_timeout {τ : Type} (timeout : Option τ) (method : WrappedMethod) : WrappedMethod :=
  match timeout with
  | none => method
  | some _ => WrappedMethod.timeoutGuard method

/--
Composition-level model of `wrap_refcount` (greentest.py lines 59-86):
`if gettotalrefcount is None: return method`, otherwise return the
leak-detection loop wrapper.  `hasGettotalrefcount` records whether
`sys.gettotalrefcount` exists on the runtime.
-/
def wrap_refcount (hasGettotalrefcount : Bool) (method : WrappedMethod) : WrappedMethod :=
  if hasGettotalrefcount then WrappedMethod.refcountLoop method else method

/--
Whether the first character list starts with the second (Python
`str.startswith`), stated over character lists so that it evaluates by
kernel reduction.
-/
def strStartsWith : List Char → List Char → Bool
  | _, [] => true
  | [], _ :: _ => false
  | c :: cs, p :: ps => (c == p) && strStartsWith cs ps

/--
Whether the first character list ends with the second (Python
`str.endswith`).
-/
def strEndsWith (s p : List Char) : Bool :=
  strStartsWith s.reverse p.reverse

/--
Whether `needle` occurs as a contiguous substring of `hay` (Python's
`in` on strings); used to state that a buffer does not contain a
message's literal text.
-/
def strContains (hay needle : List Char) : Bool :=
  hay.tails.any fun t => strStartsWith t needle

/--
Test-method recognition of `TestCaseMetaClass.__new__` (line 101):
`key.startswith('test_') or key == 'test'`.  Callability is carried
separately in the class-dictionary entries.
-/
def isTestName (key : String) : Bool :=
  strStartsWith key.data "test_".data || key == "test"

/--
Resolution of the effective timeout (lines 94-96): the class dictionary
entry `__timeout__` is consulted with the sentinel `'NONE'` standing for
absence (outer `Option`); if absent, `getattr(bases[0], '__timeout__',
None)` supplies the inherited value.
-/
def resolve_timeout {τ : Type} (classTimeout : Option (Option τ)) (baseTimeout : Option τ) :
    Option τ :=
  classTimeout.getD baseTimeout

/--
Resolution of the effective leak-check flag (lines 97-99):
`classDict.get('check_totalrefcount')`, falling back to
`getattr(bases[0], 'check_totalrefcount', True)` when it is `None`.
-/
def resolve_check_totalrefcount (classCheck : Option Bool) (baseCheck : Option Bool) : Bool :=
  match classCheck with
  | some b => b
  | none => baseCheck.getD true

/--
The attribute-rewriting loop of `TestCaseMetaClass.__new__` (lines
100-106).  The class dictionary is an association list of
(name, callable?, value); for every recognized callable test method the
value is replaced by `wrap_timeout` applied first, then, when the
leak-check flag is set, by `wrap_refcount` on the result — so the value
stored back is `wrap_refcount hasRc (wrap_timeout timeout value)`.
-/
def TestCaseMetaClass_new {τ : Type} (timeout : Option τ) (check_totalrefcount : Bool)
    (hasGettotalrefcount : Bool) (classDict : List (String × Bool × WrappedMethod)) :
    List (String × Bool × WrappedMethod) :=
  classDict.map fun entry =>
    let key := entry.1
    let callable := entry.2.1
    let value := entry.2.2
    if isTestName key && callable then
      let value := wrap_timeout timeout value
      let value := if check_totalrefcount then wrap_refcount hasGettotalrefcount value else value
      (key, callable, value)
    else
      (key, callable, value)

/-! ## Operational model of the `wrap_refcount` loop body -/

/--
Abstract runtime environment for the leak-detection loop.  `σ` is the
interpreter state; `gettotalrefcount` samples the live-reference count;
`method` runs the wrapped test method once; `cleanup` is the optional
`self.cleanup` hook (`hasattr(self, 'cleanup')`); `clearCache` is the
optional `sys.modules['urlparse'].clear_cache()` call; the three `gc`
fields model `gc.disable` / `gc.collect` / `gc.enable`.
-/
structure RCEnv (σ : Type) where
  gettotalrefcount : σ → Int
  method : σ → σ
  cleanup : Option (σ → σ)
  clearCache : Option (σ → σ)
  gcDisable : σ → σ
  gcCollect : σ → σ
  gcEnable : σ → σ

/--
One iteration of the loop body (lines 71-78): sample the count, run the
method, run the cleanup hook if declared, clear the `urlparse` cache if
loaded, sample again, and return the new state with the recorded delta.
The wrapped method is called exactly once per iteration.
-/
def refcountStep {σ : Type} (env : RCEnv σ) (s : σ) : σ × Int :=
  let d := env.gettotalrefcount s
  let s := env.method s
  let s := match env.cleanup with
    | some f => f s
    | none => s
  let s := match env.clearCache with
    | some f => f s
    | none => s
  let d2 := env.gettotalrefcount s
  (s, d2 - d)

/--
The `for _ in xrange(4) ... else: raise` loop (lines 70-82).  `n` is the
number of iterations left and `deltas` the list recorded so far.  A zero
delta breaks out of the loop successfully; exhausting the iterations
without a break reaches the `else` clause and raises
`AssertionError('refcount increased by %r' % (deltas,))`, modelled as
`.error` carrying the recorded delta sequence.
-/
def refcountGo {σ : Type} (env : RCEnv σ) :
    Nat → σ → List Int → σ × Except (List Int) (List Int)
  | 0, s, deltas => (s, Except.error deltas)
  | n + 1, s, deltas =>
    let p := refcountStep env s
    let deltas := deltas ++ [p.2]
    if p.2 = 0 then (p.1, Except.ok deltas) else refcountGo env n p.1 deltas

/--
The full body of the callable returned by `wrap_refcount` (lines 63-86):
`gc.disable(); gc.collect()`, the 4-iteration loop, then — on every exit
path, success or raise — the `finally` block `gc.collect(); gc.enable()`.
-/
def wrap_refcount_run {σ : Type} (env : RCEnv σ) (s : σ) :
    σ × Except (List Int) (List Int) :=
  let s := env.gcCollect (env.gcDisable s)
  let r := refcountGo env 4 s []
  (env.gcEnable (env.gcCollect r.1), r.2)

/-! ## `CountingHub` -/

/--
Model of a `CountingHub` instance (lines 252-258): the class attribute
`switch_count = 0` together with the state of the underlying original
hub (`_original_Hub`), abstracted as `σ`.
-/
structure CountingHub (σ : Type) where
  switch_count : Nat
  inner : σ

/--
Construction of a fresh hub: a new instance reads the class attribute
`switch_count = 0`.
-/
def CountingHub.new {σ : Type} (s : σ) : CountingHub σ :=
  { switch_count := 0, inner := s }

/--
`CountingHub.switch` (lines 256-258): `self.switch_count += 1`, then
`return _original_Hub.switch(self)`.  The original dispatch behaviour is
abstracted as `origSwitch`, a transformer of the underlying hub state
returning a result value; it never touches `switch_count`, which is an
attribute the original hub does not know about.
-/
def CountingHub.switch {σ α : Type} (origSwitch : σ → σ × α) (h : CountingHub σ) :
    CountingHub σ × α :=
  let h := { h with switch_count := h.switch_count + 1 }
  let r := origSwitch h.inner
  ({ h with inner := r.1 }, r.2)

/--
Running a sequence of switches (each possibly with a different original
dispatch behaviour), keeping the hub state.
-/
def runSwitches {σ α : Type} (l : List (σ → σ × α)) (h : CountingHub σ) : CountingHub σ :=
  l.foldl (fun h f => (CountingHub.switch f h).1) h

/-! ## Stderr capture engine -/

/--
Target of `sys.stderr`: either the real stream (`sys.__stderr__`) or the
`cStringIO` buffer installed by `hook_stderr`.
-/
inductive Stream where
  | real
  | buf
  deriving DecidableEq, Repr

/--
State of the diagnostic capture engine on one `TestCase` instance.
`verbose` is the module flag `VERBOSE`; `sysStderr` is where `sys.stderr`
currently points; `bufContents` is the contents of `self.new_stderr`
(`none` when the attribute does not exist, i.e. `hook_stderr` never
ran); `oldStderr` is `self.old_stderr`; `stderrAttr` is `self.stderr`
(`none` when the attribute does not exist).
-/
structure CaptureState where
  verbose : Bool
  sysStderr : Stream
  bufContents : Option String
  oldStderr : Option Stream
  stderrAttr : Option String
  deriving DecidableEq, Repr

/--
`TestCase.hook_stderr` (lines 166-172): no-op when `VERBOSE`; otherwise
allocate a fresh empty buffer as `self.new_stderr`, save `sys.stderr`
into `self.old_stderr`, and redirect `sys.stderr` into the buffer.
-/
def hook_stderr (s : CaptureState) : CaptureState :=
  if s.verbose then s
  else { s with bufContents := some "", oldStderr := some s.sysStderr,
                sysStderr := Stream.buf }

/--
A write to `sys.stderr`: appended to the buffer when redirected, and
otherwise delivered to the real stream (outside the model's state).
-/
def write_stderr (s : CaptureState) (text : String) : CaptureState :=
  match s.sysStderr with
  | Stream.buf => { s with bufContents := some (s.bufContents.getD "" ++ text) }
  | Stream.real => s

/--
`TestCase.unhook_stderr` (lines 174-183): no-op returning `None` when
`VERBOSE`; `self.new_stderr.getvalue()` raises `AttributeError` and the
method returns `None` when the buffer was never created; otherwise the
original stream is restored, the frozen text is stored as `self.stderr`
and returned.  (`self.old_stderr` always exists when `self.new_stderr`
does, since `hook_stderr` sets both; `getD` covers the unreachable
case.)
-/
def unhook_stderr (s : CaptureState) : CaptureState × Option String :=
  if s.verbose then (s, none)
  else
    match s.bufContents with
    | none => (s, none)
    | some v =>
      ({ s with sysStderr := s.oldStderr.getD s.sysStderr, stderrAttr := some v }, some v)

/--
Python truthiness of `not stderr` for `stderr : None | str`: true for
`None` and for the empty string.
-/
def python_not_text : Option String → Bool
  | none => true
  | some t => t.isEmpty

/--
`TestCase.assert_no_stderr` (lines 185-187): `stderr =
self.unhook_stderr(); assert not stderr`.  Returns whether the assertion
passes.
-/
def assert_no_stderr (s : CaptureState) : Bool :=
  python_not_text (unhook_stderr s).2

/-! ## Buffer update of `TestCase._extract_re` -/

/--
The consuming step of `TestCase._extract_re` on a successful match
(line 238): `self.stderr = self.stderr[:m.start(0)] + self.stderr[m.end(0) + 1:]`.
`s` and `e` are the start and (exclusive) end of the matched span;
Python slice semantics (clamping past the end) coincide with
`List.take` / `List.drop`.
-/
def extract_re_update (B : List Char) (s e : Nat) : List Char :=
  B.take s ++ B.drop (e + 1)

/-! ## Regex matcher for the `assert_stderr` patterns

The patterns `TestCase.assert_stderr` builds (lines 206, 210, 215) use
only: literal characters, `.`, lazy and greedy stars of a single
character class, `+` on a single character, the `$` anchor, and a
parenthesised group repeated `{2,5}` — which we expand into its four
fixed unrollings, sound for matchability.  The matcher decides whether
a pattern matches a prefix of the given suffix of the subject, which is
exactly the truthiness of `re.match` (strategies one and two run it
anchored at position 0 with no flags).  Greediness determines which
span the engine reports, never whether some match exists, so lazy and
greedy stars coincide for the Boolean questions asked here; the
`lazy` flag is still recorded to keep the transcription of the source
patterns exact. -/

/--
Character classes appearing in the compiled patterns: `.` without
`re.DOTALL` (anything but a newline), `.` under `re.DOTALL` (anything),
and a literal character.
-/
inductive CharCls where
  | anyNoNL
  | anyAll
  | lit (c : Char)
  deriving DecidableEq, Repr

/--
Whether a character class accepts a character.
-/
def CharCls.accepts : CharCls → Char → Bool
  | CharCls.anyNoNL, c => c != '\n'
  | CharCls.anyAll, _ => true
  | CharCls.lit a, c => a == c

/--
Regex atoms: a single character-class item, a star over a character
class (with its greediness recorded), the `$` anchor without `re.M`
(end of subject, or just before a final newline), and the `$` anchor
under `re.M` (end of subject, or just before any newline).
-/
inductive RE where
  | cls (cc : CharCls)
  | star (lazy : Bool) (cc : CharCls)
  | endNoM
  | endM
  deriving DecidableEq, Repr

/--
Fuelled matching loop.  Every recursive call strictly decreases
`p.length + cs.length` while spending exactly one unit of fuel, so with
initial fuel `p.length + cs.length` the zero-fuel fallback (which only
fires on a non-empty pattern) is unreachable; the explicit fuel merely
makes the function structurally recursive.  A star tries both stopping
and consuming one accepted character; for the Boolean result the order
of those attempts (greediness) is irrelevant.
-/
def matchGo : Nat → List RE → List Char → Bool
  | _, [], _ => true
  | 0, _ :: _, _ => false
  | _ + 1, RE.cls _ :: _, [] => false
  | fuel + 1, RE.cls cc :: rest, c :: cs => cc.accepts c && matchGo fuel rest cs
  | fuel + 1, RE.star _ _ :: rest, [] => matchGo fuel rest []
  | fuel + 1, RE.star lz cc :: rest, c :: cs =>
    matchGo fuel rest (c :: cs) || (cc.accepts c && matchGo fuel (RE.star lz cc :: rest) cs)
  | fuel + 1, RE.endNoM :: rest, cs =>
    (decide (cs = []) || decide (cs = ['\n'])) && matchGo fuel rest cs
  | fuel + 1, RE.endM :: rest, cs =>
    (decide (cs = []) || decide (cs.headD 'x' = '\n')) && matchGo fuel rest cs

/--
Whether the pattern matches a prefix of the subject (given as the list
of remaining characters).
-/
def matchRE (p : List RE) (cs : List Char) : Bool :=
  matchGo (p.length + cs.length) p cs

/--
Compilation of the interpolated `message` text into regex items, with
Python-`re` semantics for the fragment the assertions use: `.` becomes
the any-character class (newline-free without `re.DOTALL`, unrestricted
with it), every other character a literal.  `assert_stderr` interpolates
`message` into its patterns without escaping, so this is the meaning the
`re` module gives the message's characters.
-/
def compilePatternText (dotAll : Bool) (text : List Char) : List RE :=
  text.map fun c =>
    if c = '.' then RE.cls (if dotAll then CharCls.anyAll else CharCls.anyNoNL)
    else RE.cls (CharCls.lit c)

/--
Python `str.split()` with no argument: split on runs of whitespace,
discarding empty fields.  `acc` is the current word, reversed.
-/
def pySplitGo : List Char → List Char → List (List Char)
  | [], acc => if acc.isEmpty then [] else [acc.reverse]
  | c :: cs, acc =>
    if c.isWhitespace then
      if acc.isEmpty then pySplitGo cs [] else acc.reverse :: pySplitGo cs []
    else pySplitGo cs (c :: acc)

/--
Python `message.split()`.
-/
def pySplit (s : List Char) : List (List Char) :=
  pySplitGo s []

/--
Strategy one's pattern (line 206): `'^' + message + '.*?\n$.*'`,
compiled without flags (`re.match`, so `^` is the position-0 anchor and
`$` the no-`re.M` anchor).
-/
def exactRe (message : String) : List RE :=
  compilePatternText false message.data ++
    [RE.star true CharCls.anyNoNL, RE.cls (CharCls.lit '\n'), RE.endNoM,
     RE.star false CharCls.anyNoNL]

/--
Strategy two's pattern (line 210):
`'^' + '.*?'.join(message.split()) + '.*?\n$'`, compiled without flags.
-/
def wordsRe (message : String) : List RE :=
  List.intercalate [RE.star true CharCls.anyNoNL]
      ((pySplit message.data).map (compilePatternText false)) ++
    [RE.star true CharCls.anyNoNL, RE.cls (CharCls.lit '\n'), RE.endNoM]

/--
Strategy three's pattern (line 215) with its `{2,5}` group expanded to
`k` repetitions: `'^' + '.*?'.join(message.split()) +
'.*?(\n +.*?$){2,5}\n\n'`.  This pattern is only ever run through
`extract_re`, i.e. `re.search` with `re.DOTALL | re.M` (line 227), so
dots compile to the unrestricted class and `$` to the `re.M` anchor.
-/
def anotherReK (message : String) (k : Nat) : List RE :=
  List.intercalate [RE.star true CharCls.anyAll]
      ((pySplit message.data).map (compilePatternText true)) ++
    [RE.star true CharCls.anyAll] ++
    (List.replicate k
      [RE.cls (CharCls.lit '\n'), RE.cls (CharCls.lit ' '),
       RE.star false (CharCls.lit ' '), RE.star true CharCls.anyAll, RE.endM]).flatten ++
    [RE.cls (CharCls.lit '\n'), RE.cls (CharCls.lit '\n')]

/--
Suffixes of the subject lying after a newline — together with the whole
subject these are the positions where `^` matches under `re.M`, the
candidate starting points `re.search` scans for a pattern that begins
with `^`.
-/
def lineStartsAfter : List Char → List (List Char)
  | [] => []
  | c :: cs => (if c = '\n' then [cs] else []) ++ lineStartsAfter cs

/--
`re.search` under `re.DOTALL | re.M` for a pattern beginning with `^`:
the pattern is tried at position 0 and after every newline.
-/
def reSearchM (p : List RE) (subject : List Char) : Bool :=
  (subject :: lineStartsAfter subject).any fun suf => matchRE p suf

/--
Outcome of `TestCase.assert_stderr`: which of the three strategies
produced the match, or which way the call failed.
-/
inductive AssertStderrResult where
  | exact
  | words
  | ellipsis
  | extractFailed
  | noMatch
  deriving DecidableEq, Repr

/--
The strategy-selection control flow of `TestCase.assert_stderr` (lines
203-218) on the frozen buffer text: try `re.match(exact_re, stderr)`,
then `re.match(words_re, stderr)`, then — only when the message ends in
`'...'` — `extract_re(another_re)`, whose `re.search` under
`re.DOTALL | re.M` either consumes a span or raises; with no ellipsis
and no match the call raises `AssertionError('%r did not match: ...')`.
The `{2,5}` repetition succeeds exactly when one of its four unrollings
does.
-/
def assert_stderr (message : String) (stderr : List Char) : AssertStderrResult :=
  if matchRE (exactRe message) stderr then AssertStderrResult.exact
  else if matchRE (wordsRe message) stderr then AssertStderrResult.words
  else if strEndsWith message.data "...".data then
    if [2, 3, 4, 5].any (fun k => reSearchM (anotherReK message k) stderr) then
      AssertStderrResult.ellipsis
    else AssertStderrResult.extractFailed
  else AssertStderrResult.noMatch

/-! ## Exception-kind acceptance of `assert_stderr_traceback` -/

/--
Python `text.split('.')` (splitting on every dot, keeping empty fields;
the result is never the empty list).  `cur` is the current field,
reversed.
-/
def pySplitDotGo : List Char → List Char → List (List Char)
  | [], cur => [cur.reverse]
  | c :: cs, cur =>
    if c == '.' then cur.reverse :: pySplitDotGo cs [] else pySplitDotGo cs (c :: cur)

/--
Python `text.split('.')`.
-/
def pySplitDot (s : List Char) : List (List Char) :=
  pySplitDotGo s []

/--
The rejection test of `TestCase._extract_re` for the captured `type`
group (line 231): `m.group('type') != type and
m.group('type').split('.')[-1] != type`.  `g` is the captured group,
`k` the expected kind.  `split('.')` never yields an empty list, so the
`getLastD` default is never consulted.
-/
def traceback_type_rejects (g k : String) : Bool :=
  !(g == k) && !((pySplitDot g.data).getLastD [] == k.data)

/--
Acceptance as the specification phrases it: the full dotted form, or its
last dot-separated component, equals the expected kind.
-/
def spec_type_accepts (g k : String) : Bool :=
  (g == k) || ((pySplitDot g.data).getLastD [] == k.data)

/-! ## `walk_modules` -/

/--
A directory tree entry as `walk_modules` observes it: a plain file or a
directory with its own listing.
-/
inductive Entry where
  | file (name : String)
  | dir (name : String) (children : List Entry)

/--
Name of an entry.
-/
def Entry.name : Entry → String
  | Entry.file n => n
  | Entry.dir n _ => n

/--
Lexicographic codepoint order on strings, as Python 2 compares the
`str` names returned by `os.listdir`.  (This is also the order of
Lean's `String` instances, restated here over the character lists so
that it evaluates by kernel reduction.)
-/
def strLt : List Char → List Char → Bool
  | _, [] => false
  | [], _ :: _ => true
  | a :: as, b :: bs =>
    decide (a.toNat < b.toNat) || (decide (a.toNat = b.toNat) && strLt as bs)

/--
Insertion into a name-sorted list (ascending codepoint order, as
Python's `sorted` orders `os.listdir`).
-/
def insertByName (e : Entry) : List Entry → List Entry
  | [] => [e]
  | x :: xs => if strLt x.name.data e.name.data then x :: insertByName e xs else e :: x :: xs

/--
Insertion sort of a directory listing by name, modelling
`sorted(os.listdir(basedir))`.
-/
def sortEntries : List Entry → List Entry
  | [] => []
  | x :: xs => insertByName x (sortEntries xs)

mutual

/--
Size of an entry, used only to seed the fuel of the walk with a bound
on its recursion depth.
-/
def entrySize : Entry → Nat
  | Entry.file _ => 1
  | Entry.dir _ children => 1 + entriesSize children

/--
Size of a directory listing.
-/
def entriesSize : List Entry → Nat
  | [] => 1
  | e :: es => 1 + entrySize e + entriesSize es

end

/--
Python `fn[:-k]` for the concrete suffix strips used by `walk_modules`.
-/
def dropRight (s : String) (k : Nat) : String :=
  String.mk (s.data.take (s.data.length - k))

/--
The `for fn in sorted(os.listdir(basedir))` loop of `walk_modules`
(lines 346-361), processing the listing in name order.  A subdirectory
is a package when it contains an entry named `__init__.py`
(`os.path.exists(pkg_init)`); the package yields the pair
`(pkg_init, modpath + fn)` — a path whose final file name is
`__init__.py` — and then recurses into it; the recursive call
`walk_modules(path, modpath + fn + ".")` (line 352) passes only two
positional arguments, so `include_so` falls back to its `False` default
inside packages.  A plain file ending in `.py` is yielded unless its
name is `__init__.py` or `core.py`; with `include_so`, files ending in
`.so` are yielded with `_d.so` or `.so` stripped.  Paths are
represented as their component lists.  `fuel` only
makes the recursion structural: every recursive call is on the children
of a member of the current listing, whose `entriesSize` is at least two
smaller than the listing's, while fuel is spent one unit at a time, so
with initial fuel `entriesSize entries` the zero-fuel fallback is
unreachable (any listing has `entriesSize` at least one, and the
invariant `entriesSize entries ≤ fuel` is maintained — sorting preserves
`entriesSize` by `entriesSize_sortEntries`).
-/
def walkGo (fuel : Nat) (include_so : Bool) (path : List String) (modpath : String)
    (entries : List Entry) : List (List String × String) :=
  match fuel with
  | 0 => []
  | fuel + 1 =>
    ((sortEntries entries).map fun e =>
      match e with
      | Entry.file fn =>
        if strEndsWith fn.data ".py".data && !(fn == "__init__.py") && !(fn == "core.py") then
          [(path ++ [fn], modpath ++ dropRight fn 3)]
        else if include_so && strEndsWith fn.data ".so".data then
          if strEndsWith fn.data "_d.so".data then [(path ++ [fn], modpath ++ dropRight fn 5)]
          else [(path ++ [fn], modpath ++ dropRight fn 3)]
        else []
      | Entry.dir fn children =>
        if children.any (fun c => c.name == "__init__.py") then
          (path ++ [fn, "__init__.py"], modpath ++ fn) ::
            walkGo fuel false (path ++ [fn]) (modpath ++ fn ++ ".") children
        else []).flatten

/--
`walk_modules` (lines 338-362) on an explicitly supplied base directory
and module path (the Python defaults fill these from the installed
`gevent` package's location before the loop starts, which is outside
this model's state).
-/
def walk_modules (include_so : Bool) (basedir : List String) (modpath : String)
    (entries : List Entry) : List (List String × String) :=
  walkGo (entriesSize entries) include_so basedir modpath entries

/-! ## Supporting lemmas -/

theorem entriesSize_insertByName (e : Entry) (l : List Entry) :
    entriesSize (insertByName e l) = 1 + entrySize e + entriesSize l := by
  induction l with
  | nil => simp [insertByName, entriesSize]
  | cons x xs ih =>
    by_cases h : strLt x.name.data e.name.data
    · simp only [insertByName, if_pos h, entriesSize, ih]
      omega
    · simp only [insertByName, if_neg h, entriesSize]

theorem entriesSize_sortEntries (l : List Entry) :
    entriesSize (sortEntries l) = entriesSize l := by
  induction l with
  | nil => simp [sortEntries]
  | cons x xs ih =>
    simp only [sortEntries, entriesSize_insertByName, entriesSize, ih]

/--
Invariant of the leak-detection loop: starting from an accumulator of
non-zero deltas, a successful exit records at most `n` further deltas
and ends with the first (and only) zero delta, while the raising exit
reports exactly the accumulator plus `n` recorded deltas, all non-zero.
-/
theorem refcountGo_spec {σ : Type} (env : RCEnv σ) :
    ∀ (n : Nat) (s : σ) (acc : List Int), (∀ d ∈ acc, d ≠ 0) →
      (match (refcountGo env n s acc).2 with
       | Except.ok ds =>
         ds.length ≤ acc.length + n ∧ ∃ ds₀, ds = ds₀ ++ [0] ∧ ∀ d ∈ ds₀, d ≠ 0
       | Except.error ds => ds.length = acc.length + n ∧ ∀ d ∈ ds, d ≠ 0) := by
  intro n
  induction n with
  | zero =>
    intro s acc hacc
    simpa [refcountGo] using hacc
  | succ n ih =>
    intro s acc hacc
    by_cases h : (refcountStep env s).2 = 0
    · simp only [refcountGo, if_pos h, h]
      exact ⟨by simp only [List.length_append, List.length_singleton]; omega, acc, rfl, hacc⟩
    · have hacc' : ∀ d ∈ acc ++ [(refcountStep env s).2], d ≠ 0 := by
        intro d hd
        rcases List.mem_append.1 hd with h1 | h1
        · exact hacc d h1
        · rw [List.mem_singleton.1 h1]
          exact h
      have H := ih (refcountStep env s).1 (acc ++ [(refcountStep env s).2]) hacc'
      simp only [refcountGo, if_neg h]
      revert H
      cases (refcountGo env n (refcountStep env s).1 (acc ++ [(refcountStep env s).2])).2 with
      | ok ds =>
        intro H
        obtain ⟨hlen, hrest⟩ := H
        refine ⟨?_, hrest⟩
        simp only [List.length_append, List.length_singleton] at hlen
        omega
      | error ds =>
        intro H
        refine ⟨?_, H.2⟩
        have := H.1
        simp only [List.length_append, List.length_singleton] at this
        omega

/--
Counter effect of a sequence of switches: each switch adds exactly one.
-/
theorem runSwitches_switch_count {σ α : Type} :
    ∀ (l : List (σ → σ × α)) (h : CountingHub σ),
      (runSwitches l h).switch_count = h.switch_count + l.length := by
  intro l
  induction l with
  | nil => intro h; simp [runSwitches]
  | cons f fs ih =>
    intro h
    have h1 : runSwitches (f :: fs) h = runSwitches fs (CountingHub.switch f h).1 := rfl
    rw [h1, ih]
    simp only [CountingHub.switch, List.length_cons]
    omega

/--
No pair yielded anywhere in the walk has a path whose final component is
the reserved core-implementation name: plain `core.py` files are
filtered out, `.so` names cannot be `core.py`, and package directories
contribute paths ending in the initializer name.
-/
theorem walkGo_no_core :
    ∀ (fuel : Nat) (so : Bool) (path : List String) (mp : String) (entries : List Entry)
      (pr : List String × String), pr ∈ walkGo fuel so path mp entries →
      pr.1.getLastD "" ≠ "core.py" := by
  intro fuel
  induction fuel with
  | zero =>
    intro so path mp entries pr hpr
    simp [walkGo] at hpr
  | succ fuel ih =>
    intro so path mp entries pr hpr
    simp only [walkGo, List.mem_flatten, List.mem_map] at hpr
    obtain ⟨l, ⟨e, he, rfl⟩, hl⟩ := hpr
    cases e with
    | file fn =>
      simp only at hl
      by_cases h1 : (strEndsWith fn.data ".py".data && !(fn == "__init__.py")
          && !(fn == "core.py")) = true
      · rw [if_pos h1] at hl
        rw [List.mem_singleton.1 hl]
        simp only [List.getLastD_concat]
        intro hc
        rw [hc] at h1
        simp at h1
      · rw [if_neg h1] at hl
        by_cases h2 : (so && strEndsWith fn.data ".so".data) = true
        · rw [if_pos h2] at hl
          have hfn : fn ≠ "core.py" := by
            intro hc
            rw [hc] at h2
            simp only [Bool.and_eq_true] at h2
            exact absurd h2.2 (by decide)
          by_cases h3 : strEndsWith fn.data "_d.so".data = true
          · rw [if_pos h3] at hl
            rw [List.mem_singleton.1 hl]
            simpa only [List.getLastD_concat] using hfn
          · rw [if_neg h3] at hl
            rw [List.mem_singleton.1 hl]
            simpa only [List.getLastD_concat] using hfn
        · rw [if_neg h2] at hl
          simp at hl
    | dir fn children =>
      simp only at hl
      by_cases h1 : (children.any fun c => c.name == "__init__.py") = true
      · rw [if_pos h1] at hl
        rcases List.mem_cons.1 hl with h2 | h2
        · rw [h2]
          have hsplit : path ++ [fn, "__init__.py"] = (path ++ [fn]) ++ ["__init__.py"] := by
            simp
          simp only [hsplit, List.getLastD_concat]
          decide
        · exact ih false (path ++ [fn]) (mp ++ fn ++ ".") children pr h2
      · rw [if_neg h1] at hl
        simp at hl

/-! ## Claims -/

/--
C1, counterexample.  The claim states that with a configured timeout and
leak-checking enabled the Instrumentation Applier stores
`Timer Guard(Leak Detector(original))`, with the timeout guard
outermost.  On the class dictionary holding the single recognized test
method `test`, the metaclass in fact stores the leak-detection loop as
the outermost wrapper, so the claimed value differs from the computed
one.
-/
theorem C1_counterexample :
    TestCaseMetaClass_new (some 1) true true [("test", true, WrappedMethod.orig)] ≠
      [("test", true,
        WrappedMethod.timeoutGuard (WrappedMethod.refcountLoop WrappedMethod.orig))] := by
  decide

/--
C1, amended.  For every class-dictionary entry recognized as a callable
test method, when a timeout is configured and leak-checking is enabled
(and the runtime reports live-resource counts), the Instrumentation
Applier replaces the method with Leak Detector(Timer Guard(original)):
the leak-detection loop is the outermost wrapper and the timeout guard
runs inside it, once per loop iteration; unrecognized entries are kept
unchanged.
-/
theorem C1_instrument_composition {τ : Type} (t : τ)
    (classDict : List (String × Bool × WrappedMethod)) (k : String) (c : Bool)
    (v : WrappedMethod) (hmem : (k, c, v) ∈ classDict) :
    ((isTestName k && c) = true →
      (k, c, WrappedMethod.refcountLoop (WrappedMethod.timeoutGuard v)) ∈
        TestCaseMetaClass_new (some t) true true classDict) ∧
    ((isTestName k && c) = false →
      (k, c, v) ∈ TestCaseMetaClass_new (some t) true true classDict) := by
  constructor
  · intro h
    simp only [TestCaseMetaClass_new]
    refine List.mem_map.mpr ⟨(k, c, v), hmem, ?_⟩
    simp [h, wrap_timeout, wrap_refcount]
  · intro h
    simp only [TestCaseMetaClass_new]
    refine List.mem_map.mpr ⟨(k, c, v), hmem, ?_⟩
    simp [h]

/--
C1, witness: the amended theorem applied to the one-method dictionary.
-/
theorem C1_witness :
    (("test", true, WrappedMethod.orig) ∈
      ([("test", true, WrappedMethod.orig)] : List (String × Bool × WrappedMethod))) ∧
    (((isTestName "test" && true) = true →
      ("test", true, WrappedMethod.refcountLoop (WrappedMethod.timeoutGuard WrappedMethod.orig)) ∈
        TestCaseMetaClass_new (some (1 : Nat)) true true
          [("test", true, WrappedMethod.orig)]) ∧
     ((isTestName "test" && true) = false →
      ("test", true, WrappedMethod.orig) ∈
        TestCaseMetaClass_new (some (1 : Nat)) true true
          [("test", true, WrappedMethod.orig)])) :=
  ⟨by decide,
   C1_instrument_composition 1 [("test", true, WrappedMethod.orig)] "test" true
     WrappedMethod.orig (by decide)⟩

/--
C2.  On a runtime that reports live-resource counts, one invocation of a
leak-detector-wrapped method records at most 4 deltas (the wrapped
callable runs exactly once per recorded delta, as `refcountStep` shows),
a successful exit happens exactly at the first zero delta — the recorded
sequence is some all-non-zero prefix closed by a zero — and if all 4
iterations complete with no zero delta the invocation raises the
resource-growth error carrying the full recorded delta sequence (4
deltas, all non-zero).
-/
theorem C2_refcount_loop {σ : Type} (env : RCEnv σ) (s : σ) :
    match (wrap_refcount_run env s).2 with
    | Except.ok ds => ds.length ≤ 4 ∧ ∃ ds₀, ds = ds₀ ++ [0] ∧ ∀ d ∈ ds₀, d ≠ 0
    | Except.error ds => ds.length = 4 ∧ ∀ d ∈ ds, d ≠ 0 := by
  have H := refcountGo_spec env 4 (env.gcCollect (env.gcDisable s)) [] (by simp)
  simpa [wrap_refcount_run] using H

/--
C3, counterexample.  The claim states that after a successful match on
span `[s, e)` the buffer becomes `B[0..s) ++ B[e..)`.  On the buffer
`"ValueError: bad\nleftover"` the traceback pattern matches the span
`[0, 15)` (the `$` of the pattern stops just before the newline), and
the code leaves `"leftover"`, not the claimed `"\nleftover"`: the
character at position `e` is removed as well.
-/
theorem C3_counterexample :
    extract_re_update "ValueError: bad\nleftover".data 0 15 ≠
      "ValueError: bad\nleftover".data.take 0 ++ "ValueError: bad\nleftover".data.drop 15 := by
  decide

/--
C3, amended.  After a successful match on span `[s, e)` with `e` inside
the buffer, the consuming step keeps every character strictly before `s`
at its place, shifts every character from position `e + 1` on left by
the removed width `e + 1 - s`, and so removes exactly the matched span
plus the single character following it; in particular a match covering
everything up to a final trailing character (the newline of a traceback)
leaves the recorded text `self.stderr` empty.  (The consumption rewrites
only `self.stderr`; the persistent capture buffer, which `unhook_stderr`
— and hence `assert_no_stderr` — reads back, is not touched by it.)
-/
theorem C3_extract_update (B : List Char) (s e : Nat) (hse : s ≤ e) (heB : e < B.length) :
    (extract_re_update B s e).length = B.length - (e + 1 - s) ∧
    (∀ i, i < s → (extract_re_update B s e)[i]? = B[i]?) ∧
    (∀ i, s ≤ i → (extract_re_update B s e)[i]? = B[i + (e + 1 - s)]?) ∧
    (s = 0 → e + 1 = B.length → extract_re_update B s e = []) := by
  have hsB : s < B.length := lt_of_le_of_lt hse heB
  have hlen_take : (B.take s).length = s := by
    rw [List.length_take]
    omega
  refine ⟨?_, ?_, ?_, ?_⟩
  · simp only [extract_re_update, List.length_append, List.length_take, List.length_drop]
    omega
  · intro i hi
    rw [extract_re_update, List.getElem?_append, if_pos (by omega : i < (B.take s).length),
      List.getElem?_take, if_pos hi]
  · intro i hi
    rw [extract_re_update, List.getElem?_append_right (by omega : (B.take s).length ≤ i),
      List.getElem?_drop, hlen_take]
    congr 1
    omega
  · intro h0 hE
    subst h0
    rw [extract_re_update, List.take_zero, List.nil_append, hE, List.drop_length]

/--
C3, witness: the amended theorem applied to the buffer `"ab"` with the
matched span `[0, 1)`.
-/
theorem C3_witness :
    (0 : Nat) ≤ 1 ∧ 1 < "ab".data.length ∧
    ((extract_re_update "ab".data 0 1).length = "ab".data.length - (1 + 1 - 0) ∧
     (∀ i, i < 0 → (extract_re_update "ab".data 0 1)[i]? = "ab".data[i]?) ∧
     (∀ i, 0 ≤ i → (extract_re_update "ab".data 0 1)[i]? = "ab".data[i + (1 + 1 - 0)]?) ∧
     (0 = 0 → 1 + 1 = "ab".data.length → extract_re_update "ab".data 0 1 = [])) :=
  ⟨by decide, by decide, C3_extract_update "ab".data 0 1 (by decide) (by decide)⟩

/--
C4, counterexample.  The claim states that on the buffer
`"hello world extra stuff\n"` the call `assert_stderr("hello world")`
matches via the second (word-subsequence) strategy because the text is
not an exact-prefix match.  In fact the message is a literal prefix of
the buffer, the first strategy's pattern `'^' + message + '.*?\n$.*'`
matches under `re.match`, and the second strategy is never tried.
-/
theorem C4_counterexample :
    assert_stderr "hello world" ("hello world extra stuff\n".data) ≠
      AssertStderrResult.words := by
  decide

/--
C4, amended.  On the buffer `"hello world extra stuff\n"` the call
`assert_stderr("hello world")` succeeds, and the match is produced by
the first strategy (the exact-prefix rule), because the message is an
exact prefix of the buffer text.
-/
theorem C4_exact_strategy :
    assert_stderr "hello world" ("hello world extra stuff\n".data) =
      AssertStderrResult.exact ∧
    strStartsWith ("hello world extra stuff\n".data) ("hello world".data) = true := by
  decide

/--
C5, counterexample.  The claim states that `assert_no_stderr` fails
whenever the engine was never hooked.  In the never-hooked state
`unhook_stderr` returns the absent value, Python's `assert not stderr`
accepts it, and `assert_no_stderr` succeeds.
-/
theorem C5_counterexample :
    assert_no_stderr ⟨false, Stream.real, none, none, none⟩ = true := by
  decide

/--
C5, amended.  `assert_no_stderr` first unhooks, so it succeeds exactly
when the text `unhook_stderr` hands back is absent or empty: in verbose
mode, when the engine was never hooked (absent buffer), or when the
buffer contents are empty — whether the engine was still hooked or
already captured.  It fails exactly when the buffer holds non-empty
text.
-/
theorem C5_assert_no_stderr_iff (s : CaptureState) :
    assert_no_stderr s = true ↔
      s.verbose = true ∨ s.bufContents = none ∨ s.bufContents = some "" := by
  rcases s with ⟨v, st, bc, old, attr⟩
  cases v
  · cases bc with
    | none => simp [assert_no_stderr, unhook_stderr, python_not_text]
    | some t =>
      simp [assert_no_stderr, unhook_stderr, python_not_text, String.isEmpty_iff]
  · simp [assert_no_stderr, unhook_stderr, python_not_text]

/--
C6.  `unhook_stderr` is idempotent: a second call returns exactly what
the first returned (in particular, after a hook and a write of `T`, both
calls return the frozen text `T`), and calling it when the engine was
never hooked returns the absent value without error.
-/
theorem C6_unhook_idempotent (s : CaptureState) (T : String) :
    ((unhook_stderr (unhook_stderr s).1).2 = (unhook_stderr s).2) ∧
    (s.bufContents = none → (unhook_stderr s).2 = none) ∧
    (s.verbose = false →
      (unhook_stderr (write_stderr (hook_stderr s) T)).2 = some T ∧
      (unhook_stderr (unhook_stderr (write_stderr (hook_stderr s) T)).1).2 = some T) := by
  refine ⟨?_, ?_, ?_⟩
  · rcases s with ⟨v, st, bc, old, attr⟩
    cases v
    · cases bc <;> simp [unhook_stderr]
    · simp [unhook_stderr]
  · intro h
    by_cases hv : s.verbose = true
    · simp [unhook_stderr, hv]
    · simp [unhook_stderr, hv, h]
  · intro hv
    rcases s with ⟨v, st, bc, old, attr⟩
    simp only at hv
    subst hv
    simp [hook_stderr, write_stderr, unhook_stderr, String.empty_append]

/--
C6, witness: the general theorem applied to the never-hooked state and
the text `"x"`.
-/
theorem C6_witness :
    ((unhook_stderr (unhook_stderr ⟨false, Stream.real, none, none, none⟩).1).2 =
      (unhook_stderr (⟨false, Stream.real, none, none, none⟩ : CaptureState)).2) ∧
    ((⟨false, Stream.real, none, none, none⟩ : CaptureState).bufContents = none →
      (unhook_stderr (⟨false, Stream.real, none, none, none⟩ : CaptureState)).2 = none) ∧
    ((⟨false, Stream.real, none, none, none⟩ : CaptureState).verbose = false →
      (unhook_stderr (write_stderr (hook_stderr ⟨false, Stream.real, none, none, none⟩) "x")).2 =
        some "x" ∧
      (unhook_stderr
        (unhook_stderr (write_stderr (hook_stderr ⟨false, Stream.real, none, none, none⟩) "x")).1).2 =
        some "x") :=
  C6_unhook_idempotent ⟨false, Stream.real, none, none, none⟩ "x"

/--
C7.  For every expected kind and every captured exception-kind group,
the check of `assert_stderr_traceback` (performed inside `_extract_re`)
accepts — does not raise — exactly when the full dotted group or its
last dot-separated component equals the expected kind, matching the
specification's reading.
-/
theorem C7_type_acceptance (g k : String) :
    traceback_type_rejects g k = false ↔ spec_type_accepts g k = true := by
  unfold traceback_type_rejects spec_type_accepts
  cases hgk : (g == k) <;>
    cases hlast : ((pySplitDot g.data).getLastD [] == k.data) <;>
      simp [hgk, hlast]

/--
C8.  `CountingHub.switch` increments the hub's counter by exactly one
and then delegates to the original dispatch behaviour unchanged (same
effect on the underlying hub state, same returned value); over any
sequence of switches the counter grows by the length of the sequence —
in particular it is monotonically non-decreasing and never reset — and a
freshly constructed hub starts at zero.
-/
theorem C8_counting_hub {σ α : Type} (origSwitch : σ → σ × α) (h : CountingHub σ)
    (l : List (σ → σ × α)) (s0 : σ) :
    (CountingHub.switch origSwitch h).1.switch_count = h.switch_count + 1 ∧
    (CountingHub.switch origSwitch h).1.inner = (origSwitch h.inner).1 ∧
    (CountingHub.switch origSwitch h).2 = (origSwitch h.inner).2 ∧
    (runSwitches l h).switch_count = h.switch_count + l.length ∧
    h.switch_count ≤ (runSwitches l h).switch_count ∧
    (CountingHub.new s0).switch_count = 0 := by
  refine ⟨rfl, rfl, rfl, runSwitches_switch_count l h, ?_, rfl⟩
  rw [runSwitches_switch_count]
  omega

/--
C9, counterexample.  The claim states that no yielded pair has a path
whose final file name is the initializer name.  A package subdirectory
is yielded as the pair `(pkg_init, modpath + fn)` whose path ends in
`__init__.py`.
-/
theorem C9_counterexample :
    (["base", "pkg", "__init__.py"], "pkg") ∈
        walk_modules false ["base"] ""
          [Entry.dir "pkg" [Entry.file "__init__.py", Entry.file "a.py"]] ∧
    (["base", "pkg", "__init__.py"] : List String).getLastD "" = "__init__.py" := by
  decide

/--
C9, amended.  No pair yielded by the module-enumeration walk has a path
whose final file name is the fixed core-implementation name `core.py`;
paths whose final file name is the initializer name `__init__.py` are,
however, yielded — exactly one for each package subdirectory, as that
package's own entry.
-/
theorem C9_no_core_yielded (so : Bool) (basedir : List String) (mp : String)
    (entries : List Entry) (pr : List String × String)
    (hpr : pr ∈ walk_modules so basedir mp entries) :
    pr.1.getLastD "" ≠ "core.py" :=
  walkGo_no_core (entriesSize entries) so basedir mp entries pr hpr

/--
C9, witness: the amended theorem applied to a one-file listing.
-/
theorem C9_witness :
    ((["base", "a.py"], "a") ∈ walk_modules false ["base"] "" [Entry.file "a.py"]) ∧
    ((["base", "a.py"], "a").1.getLastD "" ≠ "core.py") :=
  ⟨by decide,
   C9_no_core_yielded false ["base"] "" [Entry.file "a.py"] (["base", "a.py"], "a")
     (by decide)⟩

/--
C10.  `assert_stderr` interpolates its message into its patterns without
escaping, so regex metacharacters act as pattern syntax: the message
`"hello.world"` (which contains the metacharacter `.`) succeeds against
the buffer `"helloXworld\n"` even though that buffer does not contain
the message's literal characters.
-/
theorem C10_unescaped_metachars :
    assert_stderr "hello.world" ("helloXworld\n".data) = AssertStderrResult.exact ∧
    '.' ∈ "hello.world".data ∧
    strContains ("helloXworld\n".data) ("hello.world".data) = false := by
  decide

end Greentest
